import Mathlib

/-!
# Verification of the livegollection-client message-dispatch state machine

This development embeds the livegollection client library in Lean 4 and
proves properties of its connection-lifecycle / buffering state machine and
of its message codec.

The repository contains two variants of the client:

* the *strict* variant (`LiveGollection` with the handler-readiness gate):
  inbound update messages arriving before all three mutation handlers
  (`oncreate`/`onupdate`/`ondelete`) are registered are cached in
  `cachedReceivedUpdates`; outbound update messages crafted before the
  websocket connection opens are cached in `cachedUpdatesToSend`;
* the *simple* variant (`index.ts`): callbacks are plain fields with no-op
  defaults and there is no gate.

JavaScript runtime values reaching the codec are modelled by `JSVal`.
Exceptions thrown inside a websocket event handler before any state
mutation (e.g. `JSON.parse` throwing on unparseable text, or the `in`
operator applied to a non-object) leave the client state untouched and
invoke no callback; such events are modelled as no-ops on the state, which
is exactly their effect on the modelled state and output trace.
-/

/-- Model of a JavaScript runtime value (the image of `JSON.parse`, plus
`undefined`, which property access on a missing key produces). Numbers
carry an `Int` tag only for building concrete counterexamples; no numeric
semantics is used. -/
inductive JSVal where
  | undefined : JSVal
  | null : JSVal
  | bool : Bool → JSVal
  | num : Int → JSVal
  | str : String → JSVal
  | obj : List (String × JSVal) → JSVal
deriving Repr

namespace JSVal

/-- JavaScript `v === undefined` (and its negation `v !== undefined`). -/
def isUndefined : JSVal → Bool
  | .undefined => true
  | _ => false

/-- JavaScript `"key" in v` for an object `v` (false on non-objects; on a
non-object the real `in` operator throws before any state mutation, with
the same effect on state and outputs as returning false). -/
def hasKey (v : JSVal) (key : String) : Bool :=
  match v with
  | .obj fields => fields.any (fun p => p.1 == key)
  | _ => false

/-- JavaScript property access `v.key`: the value bound to `key`, or
`undefined` when the key is absent or `v` is not an object. -/
def get (v : JSVal) (key : String) : JSVal :=
  match v with
  | .obj fields =>
      match fields.lookup key with
      | some w => w
      | none => .undefined
  | _ => .undefined

/-- JavaScript `typeof v == "string"`. -/
def isStr (v : JSVal) : Bool :=
  match v with
  | .str _ => true
  | _ => false

/-- JavaScript strict equality `v === s` against a string literal `s`. -/
def eqStr (v : JSVal) (s : String) : Bool :=
  match v with
  | .str t => t == s
  | _ => false

end JSVal

/-- The constant `LiveGollection.createMethodString`. -/
def createMethodString : String := "CREATE"

/-- The constant `LiveGollection.updateMethodString`. -/
def updateMethodString : String := "UPDATE"

/-- The constant `LiveGollection.deleteMethodString`. -/
def deleteMethodString : String := "DELETE"

/-- The `isUpdateMessage` type-narrowing check of the strict variant:
`"method" in updMess` and `updMess.method` strictly equal to one of the
three method strings, and `"id" in updMess && "item" in updMess`.
(The strict variant performs no type check on the value bound to `id`.) -/
def isUpdateMessage (updMess : JSVal) : Bool :=
  updMess.hasKey "method" &&
    (JSVal.eqStr (updMess.get "method") createMethodString ||
     JSVal.eqStr (updMess.get "method") updateMethodString ||
     JSVal.eqStr (updMess.get "method") deleteMethodString) &&
  updMess.hasKey "id" && updMess.hasKey "item"

/-- The `isUpdateMessage` check of the simple variant (`index.ts`), which
additionally requires `typeof updMess.id == "string"`. -/
def isUpdateMessageSimple (updMess : JSVal) : Bool :=
  updMess.hasKey "method" &&
    (JSVal.eqStr (updMess.get "method") createMethodString ||
     JSVal.eqStr (updMess.get "method") updateMethodString ||
     JSVal.eqStr (updMess.get "method") deleteMethodString) &&
  updMess.hasKey "id" && JSVal.isStr (updMess.get "id") &&
  updMess.hasKey "item"

/-- Crafting an update message (`craftUpdateMessage` in the simple variant,
and the message-building prefix of `craftAndSendUpdateMessage` in the
strict variant): the object `{ method, item }`, to which the key `id` bound
to `item.id` is appended exactly when `item.id !== undefined`. The message
is kept structured; `JSON.stringify` is injective on the crafted shapes, so
nothing proved here depends on the textual serialization. -/
def craftUpdateMessage (item : JSVal) (method : String) : JSVal :=
  .obj ([("method", JSVal.str method), ("item", item)] ++
    (if (item.get "id").isUndefined then [] else [("id", item.get "id")]))

/-- The mutable fields of a strict-variant `LiveGollection` instance.
Handler functions are opaque to the client, so each `_oncreate` / … /
`_onclose` field is represented by the tag (`Nat`) supplied at
registration; invoking a handler is an observable output carrying its
tag. -/
structure ClientState where
  hasConnBeenOpened : Bool
  hasConnBeenClosed : Bool
  cachedReceivedUpdates : List JSVal
  cachedUpdatesToSend : List JSVal
  isOnCreateSet : Bool
  isOnUpdateSet : Bool
  isOnDeleteSet : Bool
  isOnOpenSet : Bool
  isOnCloseSet : Bool
  onCreateH : Nat
  onUpdateH : Nat
  onDeleteH : Nat
  onOpenH : Nat
  onCloseH : Nat
deriving Repr

/-- The state of a freshly constructed client (all flags false, both caches
empty; handler tags are a dummy 0 until registration). -/
def initState : ClientState :=
  { hasConnBeenOpened := false
    hasConnBeenClosed := false
    cachedReceivedUpdates := []
    cachedUpdatesToSend := []
    isOnCreateSet := false
    isOnUpdateSet := false
    isOnDeleteSet := false
    isOnOpenSet := false
    isOnCloseSet := false
    onCreateH := 0
    onUpdateH := 0
    onDeleteH := 0
    onOpenH := 0
    onCloseH := 0 }

/-- Observable effects of the client: frames handed to `ws.send` and
invocations of registered handlers (tag of the handler, plus the item
argument for the mutation callbacks). -/
inductive Out where
  | send : JSVal → Out
  | callOncreate : Nat → JSVal → Out
  | callOnupdate : Nat → JSVal → Out
  | callOndelete : Nat → JSVal → Out
  | callOnopen : Nat → Out
  | callOnclose : Nat → Out
deriving Repr

/-- Events acting on a client instance: the three websocket events
(`wsMessage none` models a payload on which `JSON.parse` throws) and the
consumer-invoked methods and setters (setters carry the tag of the handler
being registered). -/
inductive Op where
  | wsOpen : Op
  | wsMessage : Option JSVal → Op
  | wsClose : Op
  | createOp : JSVal → Op
  | updateOp : JSVal → Op
  | deleteOp : JSVal → Op
  | setOncreate : Nat → Op
  | setOnupdate : Nat → Op
  | setOndelete : Nat → Op
  | setOnopen : Nat → Op
  | setOnclose : Nat → Op
deriving Repr

/-- The method `processUpdate`: dispatch a validated update message to the handler
selected by its `method` (the `switch` has no default branch). -/
def processUpdate (s : ClientState) (updMess : JSVal) : List Out :=
  if JSVal.eqStr (updMess.get "method") createMethodString then
    [Out.callOncreate s.onCreateH (updMess.get "item")]
  else if JSVal.eqStr (updMess.get "method") updateMethodString then
    [Out.callOnupdate s.onUpdateH (updMess.get "item")]
  else if JSVal.eqStr (updMess.get "method") deleteMethodString then
    [Out.callOndelete s.onDeleteH (updMess.get "item")]
  else []

/-- The method `craftAndSendUpdateMessage` of the strict variant: craft the message;
if the connection has not been opened cache it in `cachedUpdatesToSend`,
otherwise send it. -/
def craftAndSendUpdateMessage (s : ClientState) (item : JSVal)
    (method : String) : ClientState × List Out :=
  let updMess := craftUpdateMessage item method
  if !s.hasConnBeenOpened then
    ({ s with cachedUpdatesToSend := s.cachedUpdatesToSend ++ [updMess] }, [])
  else
    (s, [Out.send updMess])

/-- One step of the strict-variant client: the effect of a single event on
the instance state, paired with the outputs it emits, transcribed from the
constructor's websocket callbacks, the `create`/`update`/`delete` methods
and the five setters. In each mutation-handler setter the handler field is
assigned first, then (when the other two flags are set and this one is not
— the first transition into all-three-set) the cache is drained via
`processUpdate` and cleared, and only then is the flag raised. -/
def step (s : ClientState) (e : Op) : ClientState × List Out :=
  match e with
  | .wsOpen =>
      let s1 := { s with hasConnBeenOpened := true }
      ({ s1 with cachedUpdatesToSend := [] },
        (if s1.isOnOpenSet then [Out.callOnopen s1.onOpenH] else []) ++
          s1.cachedUpdatesToSend.map Out.send)
  | .wsMessage payload =>
      match payload with
      | none => (s, [])
      | some updMess =>
          if isUpdateMessage updMess then
            if !s.isOnCreateSet || !s.isOnUpdateSet || !s.isOnDeleteSet then
              ({ s with cachedReceivedUpdates :=
                  s.cachedReceivedUpdates ++ [updMess] }, [])
            else
              (s, processUpdate s updMess)
          else
            (s, [])
  | .wsClose =>
      let s1 := { s with hasConnBeenClosed := true }
      (s1, if s1.isOnCloseSet then [Out.callOnclose s1.onCloseH] else [])
  | .createOp item => craftAndSendUpdateMessage s item createMethodString
  | .updateOp item => craftAndSendUpdateMessage s item updateMethodString
  | .deleteOp item => craftAndSendUpdateMessage s item deleteMethodString
  | .setOncreate h =>
      let s1 := { s with onCreateH := h }
      if !s1.isOnCreateSet && s1.isOnUpdateSet && s1.isOnDeleteSet then
        ({ s1 with cachedReceivedUpdates := [], isOnCreateSet := true },
          (s1.cachedReceivedUpdates.map (processUpdate s1)).flatten)
      else
        ({ s1 with isOnCreateSet := true }, [])
  | .setOnupdate h =>
      let s1 := { s with onUpdateH := h }
      if s1.isOnCreateSet && !s1.isOnUpdateSet && s1.isOnDeleteSet then
        ({ s1 with cachedReceivedUpdates := [], isOnUpdateSet := true },
          (s1.cachedReceivedUpdates.map (processUpdate s1)).flatten)
      else
        ({ s1 with isOnUpdateSet := true }, [])
  | .setOndelete h =>
      let s1 := { s with onDeleteH := h }
      if s1.isOnCreateSet && s1.isOnUpdateSet && !s1.isOnDeleteSet then
        ({ s1 with cachedReceivedUpdates := [], isOnDeleteSet := true },
          (s1.cachedReceivedUpdates.map (processUpdate s1)).flatten)
      else
        ({ s1 with isOnDeleteSet := true }, [])
  | .setOnopen h =>
      let s1 := { s with onOpenH := h, isOnOpenSet := true }
      (s1, if s1.hasConnBeenOpened then [Out.callOnopen h] else [])
  | .setOnclose h =>
      let s1 := { s with onCloseH := h, isOnCloseSet := true }
      (s1, if s1.hasConnBeenClosed then [Out.callOnclose h] else [])

/-- Run a sequence of events from a state, collecting the outputs emitted,
in order. -/
def run (s : ClientState) : List Op → ClientState × List Out
  | [] => (s, [])
  | e :: es =>
      let p := step s e
      let q := run p.1 es
      (q.1, p.2 ++ q.2)

/-- The condition `isOnCreateSet && isOnUpdateSet && isOnDeleteSet`: the
handlers-ready condition gating dispatch. -/
def allMutSet (s : ClientState) : Bool :=
  s.isOnCreateSet && s.isOnUpdateSet && s.isOnDeleteSet

/-- Whether an output is an invocation of one of the three mutation
callbacks. -/
def isMutCallback : Out → Bool
  | .send _ => false
  | .callOncreate _ _ => true
  | .callOnupdate _ _ => true
  | .callOndelete _ _ => true
  | .callOnopen _ => false
  | .callOnclose _ => false

/-- Whether an output is a transport send. -/
def isSend : Out → Bool
  | .send _ => true
  | .callOncreate _ _ => false
  | .callOnupdate _ _ => false
  | .callOndelete _ _ => false
  | .callOnopen _ => false
  | .callOnclose _ => false

/-- Connection-lifecycle rank: `not-yet-open` ↦ 0, `open` ↦ 1,
`closed` ↦ 2 (the closed flag dominates). -/
def connRank (s : ClientState) : Nat :=
  if s.hasConnBeenClosed then 2 else if s.hasConnBeenOpened then 1 else 0

/-- Per-step monotonicity of the two lifecycle booleans, the five
registration flags, and the lifecycle rank: no step ever resets a flag or
moves the connection state backwards. -/
lemma step_mono_all (s : ClientState) (e : Op) :
    (s.hasConnBeenOpened = true → (step s e).1.hasConnBeenOpened = true) ∧
    (s.hasConnBeenClosed = true → (step s e).1.hasConnBeenClosed = true) ∧
    (s.isOnCreateSet = true → (step s e).1.isOnCreateSet = true) ∧
    (s.isOnUpdateSet = true → (step s e).1.isOnUpdateSet = true) ∧
    (s.isOnDeleteSet = true → (step s e).1.isOnDeleteSet = true) ∧
    (s.isOnOpenSet = true → (step s e).1.isOnOpenSet = true) ∧
    (s.isOnCloseSet = true → (step s e).1.isOnCloseSet = true) ∧
    connRank s ≤ connRank (step s e).1 := by
  cases e with
  | wsMessage payload =>
      cases payload with
      | none => simp [step, connRank]
      | some v =>
          by_cases hv : isUpdateMessage v = true <;>
            simp [step, hv, connRank] <;> split_ifs <;> simp
  | _ =>
      simp only [step, craftAndSendUpdateMessage, connRank] <;>
        split_ifs <;> simp_all

/-- Monotonicity of flags and rank along an entire run. -/
lemma run_mono_all (s : ClientState) (ops : List Op) :
    (s.hasConnBeenOpened = true → (run s ops).1.hasConnBeenOpened = true) ∧
    (s.hasConnBeenClosed = true → (run s ops).1.hasConnBeenClosed = true) ∧
    (s.isOnCreateSet = true → (run s ops).1.isOnCreateSet = true) ∧
    (s.isOnUpdateSet = true → (run s ops).1.isOnUpdateSet = true) ∧
    (s.isOnDeleteSet = true → (run s ops).1.isOnDeleteSet = true) ∧
    (s.isOnOpenSet = true → (run s ops).1.isOnOpenSet = true) ∧
    (s.isOnCloseSet = true → (run s ops).1.isOnCloseSet = true) ∧
    connRank s ≤ connRank (run s ops).1 := by
  induction ops generalizing s with
  | nil => simp [run]
  | cons e es ih =>
      have h1 := step_mono_all s e
      have h2 := ih (step s e).1
      simp only [run]
      exact ⟨fun h => h2.1 (h1.1 h), fun h => h2.2.1 (h1.2.1 h),
        fun h => h2.2.2.1 (h1.2.2.1 h), fun h => h2.2.2.2.1 (h1.2.2.2.1 h),
        fun h => h2.2.2.2.2.1 (h1.2.2.2.2.1 h),
        fun h => h2.2.2.2.2.2.1 (h1.2.2.2.2.2.1 h),
        fun h => h2.2.2.2.2.2.2.1 (h1.2.2.2.2.2.2.1 h),
        le_trans h1.2.2.2.2.2.2.2 h2.2.2.2.2.2.2.2⟩

/-- C6: silent-drop error policy. A transport-message event whose payload
fails `JSON.parse` (modelled `none`) or parses but fails `isUpdateMessage`
leaves the client state (caches, flags, handlers) completely unchanged and
emits no output: no mutation callback, no send. The parse exception never
reaches consumer-called code, since it occurs inside the websocket event
handler before any state mutation. -/
theorem silent_drop_policy (s : ClientState) (v : JSVal) :
    step s (Op.wsMessage none) = (s, []) ∧
    (isUpdateMessage v = false → step s (Op.wsMessage (some v)) = (s, [])) := by
  constructor
  · simp [step]
  · intro hv
    simp [step, hv]

/-- Witness for C6: the raw string payload `"hello"` fails validation and
is dropped with no state change and no output. -/
theorem silent_drop_policy_witness :
    isUpdateMessage (JSVal.str "hello") = false ∧
    step initState (Op.wsMessage (some (JSVal.str "hello"))) = (initState, []) :=
  ⟨rfl, (silent_drop_policy initState (JSVal.str "hello")).2 rfl⟩

/-- C7: open/close catch-up. Registering `onopen` after the open event has
fired invokes exactly that handler, immediately, exactly once; same for
`onclose` after close. Registering before the event emits nothing at
registration time, and the handler is invoked (exactly once) when the
event itself fires. -/
theorem open_close_catchup (s : ClientState) (h : Nat) :
    (s.hasConnBeenOpened = true →
      step s (Op.setOnopen h) =
        ({ s with onOpenH := h, isOnOpenSet := true }, [Out.callOnopen h])) ∧
    (s.hasConnBeenOpened = false →
      step s (Op.setOnopen h) =
        ({ s with onOpenH := h, isOnOpenSet := true }, [])) ∧
    (s.hasConnBeenClosed = true →
      step s (Op.setOnclose h) =
        ({ s with onCloseH := h, isOnCloseSet := true }, [Out.callOnclose h])) ∧
    (s.hasConnBeenClosed = false →
      step s (Op.setOnclose h) =
        ({ s with onCloseH := h, isOnCloseSet := true }, [])) ∧
    (s.isOnOpenSet = true →
      (step s Op.wsOpen).2 =
        Out.callOnopen s.onOpenH :: s.cachedUpdatesToSend.map Out.send) ∧
    (s.isOnCloseSet = true →
      (step s Op.wsClose).2 = [Out.callOnclose s.onCloseH]) := by
  refine ⟨?_, ?_, ?_, ?_, ?_, ?_⟩ <;> intro hh <;> simp [step, hh]

/-- Witness for C7: in a state where the connection already opened,
registering `onopen` with tag 5 invokes handler 5 immediately. -/
theorem open_close_catchup_witness :
    ({ initState with hasConnBeenOpened := true } :
        ClientState).hasConnBeenOpened = true ∧
    step { initState with hasConnBeenOpened := true } (Op.setOnopen 5) =
      ({ initState with
          hasConnBeenOpened := true, onOpenH := 5,
          isOnOpenSet := true }, [Out.callOnopen 5]) :=
  ⟨rfl, (open_close_catchup { initState with hasConnBeenOpened := true } 5).1 rfl⟩

/-- C8: idempotent re-registration. Once all three mutation-handler flags
are set, re-assigning any of `oncreate`/`onupdate`/`ondelete` replaces the
handler but drains nothing and dispatches no callback; moreover a drain
(non-empty output of a mutation-handler setter) can only happen on the
step whose registration completes the three flags for the first time. -/
theorem idempotent_reregistration (s : ClientState) (h : Nat) :
    (allMutSet s = true →
      step s (Op.setOncreate h) =
        ({ s with onCreateH := h, isOnCreateSet := true }, []) ∧
      step s (Op.setOnupdate h) =
        ({ s with onUpdateH := h, isOnUpdateSet := true }, []) ∧
      step s (Op.setOndelete h) =
        ({ s with onDeleteH := h, isOnDeleteSet := true }, [])) ∧
    ((step s (Op.setOncreate h)).2 ≠ [] →
      s.isOnCreateSet = false ∧ s.isOnUpdateSet = true ∧
        s.isOnDeleteSet = true) ∧
    ((step s (Op.setOnupdate h)).2 ≠ [] →
      s.isOnCreateSet = true ∧ s.isOnUpdateSet = false ∧
        s.isOnDeleteSet = true) ∧
    ((step s (Op.setOndelete h)).2 ≠ [] →
      s.isOnCreateSet = true ∧ s.isOnUpdateSet = true ∧
        s.isOnDeleteSet = false) := by
  refine ⟨?_, ?_, ?_, ?_⟩
  · intro hall
    simp only [allMutSet, Bool.and_eq_true] at hall
    obtain ⟨⟨h1, h2⟩, h3⟩ := hall
    refine ⟨?_, ?_, ?_⟩ <;> simp [step, h1, h2, h3]
  all_goals
    intro hne
    by_cases h1 : s.isOnCreateSet = true <;>
      by_cases h2 : s.isOnUpdateSet = true <;>
      by_cases h3 : s.isOnDeleteSet = true <;>
      simp_all [step]

/-- Witness for C8: with all three flags set and a stale message still in
the cache, re-registering `oncreate` with tag 9 emits nothing. -/
theorem idempotent_reregistration_witness :
    allMutSet { initState with
        isOnCreateSet := true, isOnUpdateSet := true,
        isOnDeleteSet := true } = true ∧
    step { initState with
        isOnCreateSet := true, isOnUpdateSet := true,
        isOnDeleteSet := true } (Op.setOncreate 9) =
      ({ initState with
          isOnCreateSet := true, isOnUpdateSet := true,
          isOnDeleteSet := true, onCreateH := 9 }, []) := by
  refine ⟨rfl, ?_⟩
  have := (idempotent_reregistration { initState with
    isOnCreateSet := true, isOnUpdateSet := true,
    isOnDeleteSet := true } 9).1 rfl
  exact this.1

/-- C9: monotone lifecycle and flags. Every single step (over arbitrary
states, hence along every trace) preserves `true` on the two lifecycle
booleans and the five registration flags — none is ever reset, so each
flips false→true at most once — and never decreases the lifecycle rank
not-yet-open (0) → open (1) → closed (2); the same holds across any whole
run. -/
theorem monotone_lifecycle (s : ClientState) (e : Op) (ops : List Op) :
    ((s.hasConnBeenOpened = true → (step s e).1.hasConnBeenOpened = true) ∧
     (s.hasConnBeenClosed = true → (step s e).1.hasConnBeenClosed = true) ∧
     (s.isOnCreateSet = true → (step s e).1.isOnCreateSet = true) ∧
     (s.isOnUpdateSet = true → (step s e).1.isOnUpdateSet = true) ∧
     (s.isOnDeleteSet = true → (step s e).1.isOnDeleteSet = true) ∧
     (s.isOnOpenSet = true → (step s e).1.isOnOpenSet = true) ∧
     (s.isOnCloseSet = true → (step s e).1.isOnCloseSet = true) ∧
     connRank s ≤ connRank (step s e).1) ∧
    ((s.hasConnBeenOpened = true → (run s ops).1.hasConnBeenOpened = true) ∧
     (s.hasConnBeenClosed = true → (run s ops).1.hasConnBeenClosed = true) ∧
     (s.isOnCreateSet = true → (run s ops).1.isOnCreateSet = true) ∧
     (s.isOnUpdateSet = true → (run s ops).1.isOnUpdateSet = true) ∧
     (s.isOnDeleteSet = true → (run s ops).1.isOnDeleteSet = true) ∧
     (s.isOnOpenSet = true → (run s ops).1.isOnOpenSet = true) ∧
     (s.isOnCloseSet = true → (run s ops).1.isOnCloseSet = true) ∧
     connRank s ≤ connRank (run s ops).1) :=
  ⟨step_mono_all s e, run_mono_all s ops⟩

/-- Witness for C9 on a concrete state and trace: starting already-open
with `oncreate` registered, a close event and a re-registration keep the
flags true and move the rank from 1 to 2. -/
theorem monotone_lifecycle_witness :
    ({ initState with hasConnBeenOpened := true, isOnCreateSet := true } :
        ClientState).hasConnBeenOpened = true ∧
    (step { initState with hasConnBeenOpened := true, isOnCreateSet := true }
        Op.wsClose).1.hasConnBeenOpened = true ∧
    connRank { initState with
        hasConnBeenOpened := true,
        isOnCreateSet := true } ≤
      connRank (run { initState with
        hasConnBeenOpened := true,
        isOnCreateSet := true } [Op.wsClose, Op.setOncreate 4]).1 := by
  have h := monotone_lifecycle
    { initState with hasConnBeenOpened := true, isOnCreateSet := true }
    Op.wsClose [Op.wsClose, Op.setOncreate 4]
  exact ⟨rfl, h.1.1 rfl, h.2.2.2.2.2.2.2.2⟩

/-- Helper: `eqStr` holds exactly on the string value itself. -/
lemma eqStr_eq_true_iff (v : JSVal) (s : String) :
    JSVal.eqStr v s = true ↔ v = JSVal.str s := by
  cases v <;> simp [JSVal.eqStr]

/-- Helper: a valid message is appended to `cachedReceivedUpdates` (in
arrival position, with no output) whenever not all three mutation-handler
flags are set. -/
lemma step_buffer_when_partial (s : ClientState) (v : JSVal)
    (hv : isUpdateMessage v = true) (hs : allMutSet s = false) :
    step s (Op.wsMessage (some v)) =
      ({ s with cachedReceivedUpdates := s.cachedReceivedUpdates ++ [v] },
        []) := by
  by_cases h1 : s.isOnCreateSet = true <;>
    by_cases h2 : s.isOnUpdateSet = true <;>
    by_cases h3 : s.isOnDeleteSet = true <;>
    simp_all [step, allMutSet]

/-- Helper: `allMutSet` is preserved by every step. -/
lemma step_allMutSet_mono (s : ClientState) (e : Op)
    (h : allMutSet s = true) : allMutSet (step s e).1 = true := by
  have hm := step_mono_all s e
  simp only [allMutSet, Bool.and_eq_true] at h ⊢
  exact ⟨⟨hm.2.2.1 h.1.1, hm.2.2.2.1 h.1.2⟩, hm.2.2.2.2.1 h.2⟩

/-- Helper: a step whose post-state is not handlers-ready emits no
mutation callback. -/
lemma step_no_mut_out (s : ClientState) (e : Op)
    (h : allMutSet (step s e).1 = false) :
    (step s e).2.all (fun o => !isMutCallback o) = true := by
  cases e with
  | wsOpen =>
      simp [step, isMutCallback, List.all_eq_true]
  | wsMessage payload =>
      cases payload with
      | none => simp [step]
      | some v =>
          by_cases hv : isUpdateMessage v = true
          · by_cases h1 : s.isOnCreateSet = true <;>
              by_cases h2 : s.isOnUpdateSet = true <;>
              by_cases h3 : s.isOnDeleteSet = true <;>
              simp_all [step, allMutSet]
          · simp_all [step]
  | wsClose =>
      simp [step, isMutCallback]
  | createOp item =>
      simp [step, craftAndSendUpdateMessage]
      split_ifs <;> simp [isMutCallback]
  | updateOp item =>
      simp [step, craftAndSendUpdateMessage]
      split_ifs <;> simp [isMutCallback]
  | deleteOp item =>
      simp [step, craftAndSendUpdateMessage]
      split_ifs <;> simp [isMutCallback]
  | setOncreate hh =>
      by_cases h1 : s.isOnCreateSet = true <;>
        by_cases h2 : s.isOnUpdateSet = true <;>
        by_cases h3 : s.isOnDeleteSet = true <;>
        simp_all [step, allMutSet]
  | setOnupdate hh =>
      by_cases h1 : s.isOnCreateSet = true <;>
        by_cases h2 : s.isOnUpdateSet = true <;>
        by_cases h3 : s.isOnDeleteSet = true <;>
        simp_all [step, allMutSet]
  | setOndelete hh =>
      by_cases h1 : s.isOnCreateSet = true <;>
        by_cases h2 : s.isOnUpdateSet = true <;>
        by_cases h3 : s.isOnDeleteSet = true <;>
        simp_all [step, allMutSet]
  | setOnopen hh => simp [step, isMutCallback]
  | setOnclose hh => simp [step, isMutCallback]

/-- Helper: `allMutSet` is preserved by whole runs. -/
lemma run_allMutSet_mono (s : ClientState) (ops : List Op)
    (h : allMutSet s = true) : allMutSet (run s ops).1 = true := by
  induction ops generalizing s with
  | nil => simpa [run] using h
  | cons e es ih => exact ih _ (step_allMutSet_mono s e h)

/-- Helper: a run ending in a not-handlers-ready state emitted no mutation
callback anywhere along the way. -/
lemma run_no_mut_out (s : ClientState) (ops : List Op)
    (h : allMutSet (run s ops).1 = false) :
    (run s ops).2.all (fun o => !isMutCallback o) = true := by
  induction ops generalizing s with
  | nil => simp [run]
  | cons e es ih =>
      have hrun : run s (e :: es) =
          ((run (step s e).1 es).1, (step s e).2 ++ (run (step s e).1 es).2) :=
        rfl
      rw [hrun] at h ⊢
      simp only [List.all_append, Bool.and_eq_true]
      have hstep : allMutSet (step s e).1 = false := by
        cases hb : allMutSet (step s e).1 with
        | false => rfl
        | true => simp_all [run_allMutSet_mono (step s e).1 es hb]
      exact ⟨step_no_mut_out s e hstep, ih _ h⟩

/-- A sample valid CREATE message (string id, as in the wire protocol). -/
def msgCreate1 : JSVal :=
  .obj [("method", .str "CREATE"), ("id", .str "1"),
    ("item", .obj [("v", .num 1)])]

/-- A sample valid UPDATE message. -/
def msgUpdate2 : JSVal :=
  .obj [("method", .str "UPDATE"), ("id", .str "2"),
    ("item", .obj [("v", .num 2)])]

/-- C1: gate completeness. For every event sequence run on a fresh
strict-variant client, if at the end not all three of the
create/update/delete handler flags are set, then no mutation callback was
emitted anywhere along the run (flags are monotone, so none was ever set
at an intermediate dispatch point either); and a valid message arriving at
any state in which not all three flags are set is appended to the inbound
cache, with no callback. -/
theorem gate_completeness (ops : List Op) (v : JSVal) :
    (allMutSet (run initState ops).1 = false →
      (run initState ops).2.all (fun o => !isMutCallback o) = true) ∧
    (isUpdateMessage v = true → allMutSet (run initState ops).1 = false →
      step (run initState ops).1 (Op.wsMessage (some v)) =
        ({ (run initState ops).1 with cachedReceivedUpdates :=
            (run initState ops).1.cachedReceivedUpdates ++ [v] }, [])) :=
  ⟨run_no_mut_out initState ops,
   fun hv hs => step_buffer_when_partial (run initState ops).1 v hv hs⟩

/-- Witness for C1: a valid message arriving on a fresh client with only
`oncreate` registered triggers no callback and is cached. -/
theorem gate_completeness_witness :
    allMutSet (run initState [Op.setOncreate 1,
        Op.wsMessage (some msgCreate1)]).1 = false ∧
    isUpdateMessage msgUpdate2 = true ∧
    (run initState [Op.setOncreate 1,
        Op.wsMessage (some msgCreate1)]).2.all
      (fun o => !isMutCallback o) = true ∧
    step (run initState [Op.setOncreate 1,
        Op.wsMessage (some msgCreate1)]).1 (Op.wsMessage (some msgUpdate2)) =
      ({ (run initState [Op.setOncreate 1,
            Op.wsMessage (some msgCreate1)]).1 with
          cachedReceivedUpdates :=
            (run initState [Op.setOncreate 1,
              Op.wsMessage (some msgCreate1)]).1.cachedReceivedUpdates ++
              [msgUpdate2] }, []) := by
  have h := gate_completeness [Op.setOncreate 1,
    Op.wsMessage (some msgCreate1)] msgUpdate2
  exact ⟨rfl, rfl, h.1 rfl, h.2 rfl rfl⟩

/-- The three mutation kinds, used to quantify uniformly over the
`create`/`update`/`delete` methods and the corresponding setters. -/
inductive MutKind where
  | createK : MutKind
  | updateK : MutKind
  | deleteK : MutKind
deriving Repr, DecidableEq

/-- The method string a mutation kind encodes with. -/
def methodOf : MutKind → String
  | .createK => createMethodString
  | .updateK => updateMethodString
  | .deleteK => deleteMethodString

/-- The mutation method call of a given kind. -/
def mutCall : MutKind → JSVal → Op
  | .createK, item => .createOp item
  | .updateK, item => .updateOp item
  | .deleteK, item => .deleteOp item

/-- The handler-setter assignment of a given kind. -/
def setterOp : MutKind → Nat → Op
  | .createK, h => .setOncreate h
  | .updateK, h => .setOnupdate h
  | .deleteK, h => .setOndelete h

/-- The state after the setter's first line `this._onX = handler`. -/
def handlerAssigned : MutKind → Nat → ClientState → ClientState
  | .createK, h, s => { s with onCreateH := h }
  | .updateK, h, s => { s with onUpdateH := h }
  | .deleteK, h, s => { s with onDeleteH := h }

/-- The state after the setter's last line `this.isOnXSet = true`. -/
def flagRaised : MutKind → ClientState → ClientState
  | .createK, s => { s with isOnCreateSet := true }
  | .updateK, s => { s with isOnUpdateSet := true }
  | .deleteK, s => { s with isOnDeleteSet := true }

/-- Exactly the handler of kind `k` is still unregistered (the other two
flags are set): registering `k` is "registering the last missing
handler". -/
def lastMissing : MutKind → ClientState → Prop
  | .createK, s => s.isOnCreateSet = false ∧ s.isOnUpdateSet = true ∧
      s.isOnDeleteSet = true
  | .updateK, s => s.isOnCreateSet = true ∧ s.isOnUpdateSet = false ∧
      s.isOnDeleteSet = true
  | .deleteK, s => s.isOnCreateSet = true ∧ s.isOnUpdateSet = true ∧
      s.isOnDeleteSet = false

/-- Helper: a run over concatenated event lists is the run of the first
followed by the run of the second from the reached state, outputs
concatenated. -/
lemma run_append (s : ClientState) (xs ys : List Op) :
    run s (xs ++ ys) =
      ((run (run s xs).1 ys).1, (run s xs).2 ++ (run (run s xs).1 ys).2) := by
  induction xs generalizing s with
  | nil => simp [run]
  | cons x xs ih =>
      simp only [List.cons_append, run, List.append_eq]
      rw [ih]
      simp [List.append_assoc]

/-- Helper: `lastMissing` implies the gate is not yet ready. -/
lemma lastMissing_not_all (k : MutKind) (s : ClientState)
    (hk : lastMissing k s) : allMutSet s = false := by
  cases k <;> simp_all [lastMissing, allMutSet]

/-- Helper: `processUpdate` reads only the three handler tags. -/
lemma processUpdate_congr (s t : ClientState) (m : JSVal)
    (h1 : s.onCreateH = t.onCreateH) (h2 : s.onUpdateH = t.onUpdateH)
    (h3 : s.onDeleteH = t.onDeleteH) :
    processUpdate s m = processUpdate t m := by
  simp [processUpdate, h1, h2, h3]

/-- Helper: a validated message dispatches to exactly one callback. -/
lemma processUpdate_length_one (s : ClientState) (m : JSVal)
    (hm : isUpdateMessage m = true) : ∃ o, processUpdate s m = [o] := by
  simp only [isUpdateMessage, Bool.and_eq_true, Bool.or_eq_true] at hm
  obtain ⟨⟨⟨-, hmeth⟩, -⟩, -⟩ := hm
  rcases hmeth with (h | h) | h <;> rw [eqStr_eq_true_iff] at h
  · exact ⟨Out.callOncreate s.onCreateH (m.get "item"), by
      simp [processUpdate, h, JSVal.eqStr]⟩
  · exact ⟨Out.callOnupdate s.onUpdateH (m.get "item"), by
      simp [processUpdate, h, JSVal.eqStr, createMethodString,
        updateMethodString]⟩
  · exact ⟨Out.callOndelete s.onDeleteH (m.get "item"), by
      simp [processUpdate, h, JSVal.eqStr, createMethodString,
        updateMethodString, deleteMethodString]⟩

/-- Helper: valid messages arriving while the gate is not ready are cached
in arrival order; nothing is emitted. -/
lemma run_wsMessages_buffered (ms : List JSVal) (s : ClientState)
    (hs : allMutSet s = false)
    (hv : ∀ m ∈ ms, isUpdateMessage m = true) :
    run s (ms.map (fun m => Op.wsMessage (some m))) =
      ({ s with cachedReceivedUpdates := s.cachedReceivedUpdates ++ ms },
        []) := by
  induction ms generalizing s with
  | nil => simp [run]
  | cons m ms ih =>
      have hm : isUpdateMessage m = true := hv m (by simp)
      have hstep := step_buffer_when_partial s m hm hs
      have hrun : run s ((m :: ms).map (fun m => Op.wsMessage (some m))) =
          ((run (step s (Op.wsMessage (some m))).1
              (ms.map (fun m => Op.wsMessage (some m)))).1,
            (step s (Op.wsMessage (some m))).2 ++
              (run (step s (Op.wsMessage (some m))).1
                (ms.map (fun m => Op.wsMessage (some m)))).2) := rfl
      rw [hrun, hstep]
      rw [ih _ (by simpa [allMutSet] using hs) (fun m hm2 => hv m (by simp [hm2]))]
      simp

/-- Helper: registering the last missing handler drains the cache through
`processUpdate` (with the freshly assigned handler in place), in cache
order, clears the cache and raises the flag. -/
lemma step_setter_drains (k : MutKind) (s : ClientState) (h : Nat)
    (hk : lastMissing k s) :
    step s (setterOp k h) =
      ({ flagRaised k (handlerAssigned k h s) with
          cachedReceivedUpdates := [] },
        (s.cachedReceivedUpdates.map
          (processUpdate (handlerAssigned k h s))).flatten) := by
  cases k <;>
    obtain ⟨h1, h2, h3⟩ := hk <;>
    simp [step, setterOp, handlerAssigned, flagRaised, h1, h2, h3]

/-- C2: buffer-then-drain. Starting from any state whose inbound cache is
empty and in which exactly one mutation handler is missing, receiving the
valid messages `ms` and then registering the missing handler produces as
outputs exactly the per-message dispatches of `ms`, in arrival order (the
whole run emits nothing else), each message dispatching exactly one
callback, and the inbound cache is empty immediately afterwards. -/
theorem buffer_then_drain (k : MutKind) (s : ClientState) (h : Nat)
    (ms : List JSVal) (hk : lastMissing k s)
    (hbuf : s.cachedReceivedUpdates = [])
    (hv : ∀ m ∈ ms, isUpdateMessage m = true) :
    (run s (ms.map (fun m => Op.wsMessage (some m)) ++ [setterOp k h])).2 =
      (ms.map (processUpdate (handlerAssigned k h s))).flatten ∧
    (∀ m ∈ ms, ∃ o, processUpdate (handlerAssigned k h s) m = [o]) ∧
    (run s (ms.map (fun m => Op.wsMessage (some m)) ++
        [setterOp k h])).1.cachedReceivedUpdates = [] := by
  have hphase1 := run_wsMessages_buffered ms s (lastMissing_not_all k s hk) hv
  have hrunapp : ∀ (t : ClientState) (xs : List Op) (y : Op),
      run t (xs ++ [y]) =
        ((step (run t xs).1 y).1, (run t xs).2 ++ (step (run t xs).1 y).2) := by
    intro t xs y
    rw [run_append]
    simp [run]
  set u : ClientState :=
    { s with cachedReceivedUpdates := s.cachedReceivedUpdates ++ ms } with hu
  have hku : lastMissing k u := by
    cases k <;> simp_all [lastMissing]
  have hdrain := step_setter_drains k u h hku
  have hcongr : processUpdate (handlerAssigned k h u) =
      processUpdate (handlerAssigned k h s) := by
    funext m
    apply processUpdate_congr <;> cases k <;> simp [handlerAssigned]
  rw [hrunapp s (ms.map (fun m => Op.wsMessage (some m))) (setterOp k h),
    hphase1]
  simp only [hdrain, hcongr]
  refine ⟨by simp [hu, hbuf], fun m hm =>
    processUpdate_length_one _ m (hv m hm), by simp⟩

/-- Witness for C2: two valid messages buffered with `ondelete` missing,
then registering `ondelete` (tag 3) dispatches `oncreate` then `onupdate`
exactly once each, in order, and empties the cache. -/
theorem buffer_then_drain_witness :
    lastMissing MutKind.deleteK { initState with
      isOnCreateSet := true, isOnUpdateSet := true,
      onCreateH := 1, onUpdateH := 2 } ∧
    (run { initState with
        isOnCreateSet := true, isOnUpdateSet := true,
        onCreateH := 1, onUpdateH := 2 }
      ([msgCreate1, msgUpdate2].map (fun m => Op.wsMessage (some m)) ++
        [setterOp MutKind.deleteK 3])).2 =
      [Out.callOncreate 1 (JSVal.obj [("v", JSVal.num 1)]),
       Out.callOnupdate 2 (JSVal.obj [("v", JSVal.num 2)])] ∧
    (run { initState with
        isOnCreateSet := true, isOnUpdateSet := true,
        onCreateH := 1, onUpdateH := 2 }
      ([msgCreate1, msgUpdate2].map (fun m => Op.wsMessage (some m)) ++
        [setterOp MutKind.deleteK 3])).1.cachedReceivedUpdates = [] := by
  have h := buffer_then_drain MutKind.deleteK { initState with
      isOnCreateSet := true, isOnUpdateSet := true,
      onCreateH := 1, onUpdateH := 2 } 3 [msgCreate1, msgUpdate2]
    (by exact ⟨rfl, rfl, rfl⟩) rfl
    (by
      intro m hm
      simp only [List.mem_cons, List.not_mem_nil, or_false] at hm
      rcases hm with rfl | rfl <;> rfl)
  refine ⟨⟨rfl, rfl, rfl⟩, ?_, h.2.2⟩
  rw [h.1]
  rfl

/-- Helper: mutation calls made before the connection has opened append
their crafted messages to `cachedUpdatesToSend` in call order, sending
nothing and emitting nothing. -/
lemma run_mutCalls_queued (calls : List (MutKind × JSVal)) (s : ClientState)
    (hs : s.hasConnBeenOpened = false) :
    run s (calls.map (fun c => mutCall c.1 c.2)) =
      ({ s with cachedUpdatesToSend := s.cachedUpdatesToSend ++
          calls.map (fun c => craftUpdateMessage c.2 (methodOf c.1)) },
        []) := by
  induction calls generalizing s with
  | nil => simp [run]
  | cons c rest ih =>
      obtain ⟨k, item⟩ := c
      have hstep : step s (mutCall k item) =
          ({ s with cachedUpdatesToSend := s.cachedUpdatesToSend ++
              [craftUpdateMessage item (methodOf k)] }, []) := by
        cases k <;>
          simp [step, mutCall, methodOf, craftAndSendUpdateMessage, hs]
      have hrun : run s (((k, item) :: rest).map (fun c => mutCall c.1 c.2)) =
          ((run (step s (mutCall k item)).1
              (rest.map (fun c => mutCall c.1 c.2))).1,
            (step s (mutCall k item)).2 ++
              (run (step s (mutCall k item)).1
                (rest.map (fun c => mutCall c.1 c.2))).2) := rfl
      rw [hrun, hstep, ih _ (by simp [hs])]
      simp

/-- C3: queue-then-flush with open-callback ordering. From any state in
which the connection has not opened, a sequence of mutation calls emits
nothing (each message is queued), and the subsequent open event emits the
on-open callback first (if registered) and then sends the queued messages
exactly once, in call order, leaving `cachedUpdatesToSend` empty. -/
theorem queue_then_flush (calls : List (MutKind × JSVal)) (s : ClientState)
    (hs : s.hasConnBeenOpened = false) :
    (run s (calls.map (fun c => mutCall c.1 c.2))).2 = [] ∧
    (run s (calls.map (fun c => mutCall c.1 c.2) ++ [Op.wsOpen])).2 =
      (if s.isOnOpenSet then [Out.callOnopen s.onOpenH] else []) ++
        (s.cachedUpdatesToSend ++
          calls.map (fun c => craftUpdateMessage c.2 (methodOf c.1))).map
          Out.send ∧
    (run s (calls.map (fun c => mutCall c.1 c.2) ++
        [Op.wsOpen])).1.cachedUpdatesToSend = [] := by
  have hq := run_mutCalls_queued calls s hs
  refine ⟨by rw [hq], ?_, ?_⟩ <;>
    rw [run_append, hq] <;>
    simp [run, step]

/-- Witness for C3: with `onopen` registered (tag 7), calling create then
update before open and then opening emits the on-open call followed by the
two sends in call order, and empties the queue. -/
theorem queue_then_flush_witness :
    ({ initState with isOnOpenSet := true, onOpenH := 7 } :
        ClientState).hasConnBeenOpened = false ∧
    (run { initState with isOnOpenSet := true, onOpenH := 7 }
      ([((MutKind.createK : MutKind), JSVal.obj [("a", JSVal.num 1)]),
        ((MutKind.updateK : MutKind), JSVal.obj [("id", JSVal.str "9")])].map
          (fun c => mutCall c.1 c.2) ++ [Op.wsOpen])).2 =
      [Out.callOnopen 7,
       Out.send (craftUpdateMessage (JSVal.obj [("a", JSVal.num 1)])
         createMethodString),
       Out.send (craftUpdateMessage (JSVal.obj [("id", JSVal.str "9")])
         updateMethodString)] ∧
    (run { initState with isOnOpenSet := true, onOpenH := 7 }
      ([((MutKind.createK : MutKind), JSVal.obj [("a", JSVal.num 1)]),
        ((MutKind.updateK : MutKind), JSVal.obj [("id", JSVal.str "9")])].map
          (fun c => mutCall c.1 c.2) ++
        [Op.wsOpen])).1.cachedUpdatesToSend = [] := by
  have h := queue_then_flush
    [((MutKind.createK : MutKind), JSVal.obj [("a", JSVal.num 1)]),
     ((MutKind.updateK : MutKind), JSVal.obj [("id", JSVal.str "9")])]
    { initState with isOnOpenSet := true, onOpenH := 7 } rfl
  refine ⟨rfl, ?_, h.2.2⟩
  rw [h.2.1]
  rfl

/-- Whether an event is the transport-open event. -/
def isOpenEv : Op → Bool
  | .wsOpen => true
  | .wsMessage _ => false
  | .wsClose => false
  | .createOp _ => false
  | .updateOp _ => false
  | .deleteOp _ => false
  | .setOncreate _ => false
  | .setOnupdate _ => false
  | .setOndelete _ => false
  | .setOnopen _ => false
  | .setOnclose _ => false

/-- The crafted messages of the mutation calls in an event list, in call
order. -/
def queuedMsgs : List Op → List JSVal
  | [] => []
  | Op.createOp item :: es =>
      craftUpdateMessage item createMethodString :: queuedMsgs es
  | Op.updateOp item :: es =>
      craftUpdateMessage item updateMethodString :: queuedMsgs es
  | Op.deleteOp item :: es =>
      craftUpdateMessage item deleteMethodString :: queuedMsgs es
  | Op.wsOpen :: es => queuedMsgs es
  | Op.wsMessage _ :: es => queuedMsgs es
  | Op.wsClose :: es => queuedMsgs es
  | Op.setOncreate _ :: es => queuedMsgs es
  | Op.setOnupdate _ :: es => queuedMsgs es
  | Op.setOndelete _ :: es => queuedMsgs es
  | Op.setOnopen _ :: es => queuedMsgs es
  | Op.setOnclose _ :: es => queuedMsgs es

/-- Helper: dispatching never produces a transport send. -/
lemma processUpdate_no_send (s : ClientState) (m : JSVal) :
    (processUpdate s m).all (fun o => !isSend o) = true := by
  simp only [processUpdate]
  split_ifs <;> simp [isSend]

/-- Helper: one step with any non-open event, from a never-opened state:
the state stays never-opened, no send is emitted, and the outbound queue
grows by exactly the crafted messages of the event. -/
lemma step_no_open_queue (s : ClientState) (e : Op)
    (hs : s.hasConnBeenOpened = false) (he : isOpenEv e = false) :
    (step s e).1.hasConnBeenOpened = false ∧
    (step s e).2.all (fun o => !isSend o) = true ∧
    (step s e).1.cachedUpdatesToSend =
      s.cachedUpdatesToSend ++ queuedMsgs [e] := by
  cases e with
  | wsOpen => simp [isOpenEv] at he
  | wsMessage payload =>
      cases payload with
      | none => simp [step, queuedMsgs, hs]
      | some v =>
          by_cases hv : isUpdateMessage v = true
          · by_cases hflags : (!s.isOnCreateSet || !s.isOnUpdateSet ||
                !s.isOnDeleteSet) = true
            · simp [step, hv, hflags, queuedMsgs, hs]
            · simp [step, hv, hflags, queuedMsgs, hs,
                processUpdate_no_send]
          · simp [step, hv, queuedMsgs, hs]
  | wsClose => simp [step, queuedMsgs, hs, isSend]
  | createOp item =>
      simp [step, craftAndSendUpdateMessage, hs, queuedMsgs]
  | updateOp item =>
      simp [step, craftAndSendUpdateMessage, hs, queuedMsgs]
  | deleteOp item =>
      simp [step, craftAndSendUpdateMessage, hs, queuedMsgs]
  | setOncreate hh =>
      by_cases hc : (!s.isOnCreateSet && s.isOnUpdateSet &&
          s.isOnDeleteSet) = true <;>
        simp [step, hc, queuedMsgs, hs, List.all_eq_true, List.mem_flatten]
      intro o ho m hm
      have hps := processUpdate_no_send { s with onCreateH := hh } o
      simp only [List.all_eq_true] at hps
      simpa using hps m hm
  | setOnupdate hh =>
      by_cases hc : (s.isOnCreateSet && !s.isOnUpdateSet &&
          s.isOnDeleteSet) = true <;>
        simp [step, hc, queuedMsgs, hs, List.all_eq_true, List.mem_flatten]
      intro o ho m hm
      have hps := processUpdate_no_send { s with onUpdateH := hh } o
      simp only [List.all_eq_true] at hps
      simpa using hps m hm
  | setOndelete hh =>
      by_cases hc : (s.isOnCreateSet && s.isOnUpdateSet &&
          !s.isOnDeleteSet) = true <;>
        simp [step, hc, queuedMsgs, hs, List.all_eq_true, List.mem_flatten]
      intro o ho m hm
      have hps := processUpdate_no_send { s with onDeleteH := hh } o
      simp only [List.all_eq_true] at hps
      simpa using hps m hm
  | setOnopen hh => simp [step, queuedMsgs, hs, isSend]
  | setOnclose hh => simp [step, queuedMsgs, hs, isSend]

/-- Helper: `queuedMsgs` distributes over cons. -/
lemma queuedMsgs_cons (e : Op) (es : List Op) :
    queuedMsgs (e :: es) = queuedMsgs [e] ++ queuedMsgs es := by
  cases e <;> simp [queuedMsgs]

/-- C10: lost-forever queue when the connection never opens. Along any run
containing no transport-open event (in particular one in which the close
event fired without open ever firing), a never-opened client never hands
any frame to the transport; every mutation call's crafted message is
appended to `cachedUpdatesToSend`, which ends the run holding all of them,
in call order, and the client stays never-opened (so nothing ever flushes
them). No error is surfaced: every event remains a total, silent
transition. -/
theorem lost_forever_queue (s : ClientState) (ops : List Op)
    (hs : s.hasConnBeenOpened = false)
    (hno : ops.all (fun e => !isOpenEv e) = true) :
    (run s ops).1.hasConnBeenOpened = false ∧
    (run s ops).2.all (fun o => !isSend o) = true ∧
    (run s ops).1.cachedUpdatesToSend =
      s.cachedUpdatesToSend ++ queuedMsgs ops := by
  induction ops generalizing s with
  | nil => simp [run, queuedMsgs, hs]
  | cons e es ih =>
      simp only [List.all_cons, Bool.and_eq_true, Bool.not_eq_eq_eq_not,
        Bool.not_true] at hno
      have he : isOpenEv e = false := by simpa using hno.1
      have hstep := step_no_open_queue s e hs he
      have hrest := ih (step s e).1 hstep.1 (by
        simp only [List.all_eq_true] at hno ⊢
        exact hno.2)
      have hrun : run s (e :: es) =
          ((run (step s e).1 es).1,
            (step s e).2 ++ (run (step s e).1 es).2) := rfl
      rw [hrun]
      refine ⟨hrest.1, ?_, ?_⟩
      · simp only [List.all_append, Bool.and_eq_true]
        exact ⟨hstep.2.1, hrest.2.1⟩
      · rw [hrest.2.2, hstep.2.2]
        conv_rhs => rw [queuedMsgs_cons]
        rw [List.append_assoc]

/-- Witness for C10: close fires without open, then a create call: the
message is crafted into the queue, nothing is sent, and the queue holds it
at the end. -/
theorem lost_forever_queue_witness :
    initState.hasConnBeenOpened = false ∧
    [Op.wsClose, Op.createOp (JSVal.obj [("a", JSVal.num 1)])].all
      (fun e => !isOpenEv e) = true ∧
    (run initState [Op.wsClose,
        Op.createOp (JSVal.obj [("a", JSVal.num 1)])]).2.all
      (fun o => !isSend o) = true ∧
    (run initState [Op.wsClose,
        Op.createOp (JSVal.obj [("a", JSVal.num 1)])]).1.cachedUpdatesToSend =
      [craftUpdateMessage (JSVal.obj [("a", JSVal.num 1)])
        createMethodString] := by
  have h := lost_forever_queue initState
    [Op.wsClose, Op.createOp (JSVal.obj [("a", JSVal.num 1)])] rfl rfl
  exact ⟨rfl, rfl, h.2.1, h.2.2⟩

/-- A record with `method = "CREATE"`, an `id` key bound to the number 42
(not a string), and an `item` key. -/
def badIdMsg : JSVal :=
  .obj [("method", .str "CREATE"), ("id", .num 42), ("item", .obj [])]

/-- C4 counterexample: the strict variant's `isUpdateMessage` accepts a
record whose `id` value is a number, not a string — the record is buffered
on a fresh client, and once the three handlers are registered its callback
fires — refuting the claim that a non-string `id` value is rejected and
triggers no callback. -/
theorem inbound_validation_cx :
    JSVal.isStr (badIdMsg.get "id") = false ∧
    isUpdateMessage badIdMsg = true ∧
    step initState (Op.wsMessage (some badIdMsg)) =
      ({ initState with cachedReceivedUpdates := [badIdMsg] }, []) ∧
    (run initState [Op.wsMessage (some badIdMsg), Op.setOncreate 1,
        Op.setOnupdate 2, Op.setOndelete 3]).2 =
      [Out.callOncreate 1 (JSVal.obj [])] :=
  ⟨rfl, rfl, rfl, rfl⟩

/-- C4 amended: in the strict variant a parsed inbound record is accepted
iff it has a `method` equal to one of the three strings, an `id` key —
with **no constraint on the id value's type** — and an `item` key; only
the simple variant's validator additionally requires the `id` value to be
a string. Rejected records change nothing and trigger nothing; accepted
ones are buffered when the gate is not ready and dispatched when it is. -/
theorem inbound_validation_amended (v : JSVal) (s : ClientState) :
    (isUpdateMessage v = true ↔
      (v.hasKey "method" = true ∧
       (v.get "method" = JSVal.str "CREATE" ∨
        v.get "method" = JSVal.str "UPDATE" ∨
        v.get "method" = JSVal.str "DELETE") ∧
       v.hasKey "id" = true ∧ v.hasKey "item" = true)) ∧
    (isUpdateMessageSimple v = true ↔
      (isUpdateMessage v = true ∧ JSVal.isStr (v.get "id") = true)) ∧
    (isUpdateMessage v = false → step s (Op.wsMessage (some v)) = (s, [])) ∧
    (isUpdateMessage v = true → allMutSet s = false →
      step s (Op.wsMessage (some v)) =
        ({ s with cachedReceivedUpdates :=
            s.cachedReceivedUpdates ++ [v] }, [])) ∧
    (isUpdateMessage v = true → allMutSet s = true →
      step s (Op.wsMessage (some v)) = (s, processUpdate s v)) := by
  refine ⟨?_, ?_, ?_, ?_, ?_⟩
  · simp only [isUpdateMessage, Bool.and_eq_true, Bool.or_eq_true,
      eqStr_eq_true_iff, createMethodString, updateMethodString,
      deleteMethodString]
    tauto
  · simp only [isUpdateMessage, isUpdateMessageSimple, Bool.and_eq_true,
      Bool.or_eq_true, eqStr_eq_true_iff]
    tauto
  · intro hv
    simp [step, hv]
  · intro hv hs
    exact step_buffer_when_partial s v hv hs
  · intro hv hs
    simp only [allMutSet, Bool.and_eq_true] at hs
    simp [step, hv, hs.1.1, hs.1.2, hs.2]

/-- Witness for C4's amended theorem: a valid message is buffered on a
fresh client; a raw string payload is rejected with no effect. -/
theorem inbound_validation_amended_witness :
    isUpdateMessage msgCreate1 = true ∧
    allMutSet initState = false ∧
    step initState (Op.wsMessage (some msgCreate1)) =
      ({ initState with cachedReceivedUpdates := [msgCreate1] }, []) ∧
    isUpdateMessage (JSVal.str "x") = false ∧
    step initState (Op.wsMessage (some (JSVal.str "x"))) =
      (initState, []) := by
  have h1 := inbound_validation_amended msgCreate1 initState
  have h2 := inbound_validation_amended (JSVal.str "x") initState
  exact ⟨rfl, rfl, h1.2.2.2.1 rfl rfl, rfl, h2.2.2.1 rfl⟩

/-- An item whose `id` field is present but bound to `null`. -/
def nullIdItem : JSVal := .obj [("id", JSVal.null)]

/-- C5 counterexample: encoding an item whose identifier field is `null`
produces a message that **does** contain an `id` key (bound to `null`),
because the code tests only `item.id !== undefined` — refuting the
claim's "present and not undefined/null" condition. -/
theorem encode_id_cx :
    nullIdItem.get "id" = JSVal.null ∧
    (craftUpdateMessage nullIdItem createMethodString).hasKey "id" = true ∧
    (craftUpdateMessage nullIdItem createMethodString).get "id" =
      JSVal.null :=
  ⟨rfl, rfl, rfl⟩

/-- C5 amended: for every item and method, the crafted message contains an
`id` key iff the item's `id` is **not undefined** (a missing key and an
explicitly-undefined value both count as undefined; `null` does not, and
is carried through), in which case the message's `id` equals the item's
identifier; the message always carries the method string and the item
itself. -/
theorem encode_id_amended (item : JSVal) (method : String) :
    (craftUpdateMessage item method).hasKey "id" =
      !(item.get "id").isUndefined ∧
    ((item.get "id").isUndefined = false →
      (craftUpdateMessage item method).get "id" = item.get "id") ∧
    (craftUpdateMessage item method).get "method" = JSVal.str method ∧
    (craftUpdateMessage item method).get "item" = item := by
  simp only [craftUpdateMessage]
  generalize item.get "id" = idv
  cases idv <;>
    simp [JSVal.hasKey, JSVal.get, JSVal.isUndefined, List.lookup]

/-- Witness for C5's amended theorem: an item with a string id "9" encodes
to a message whose `id` is that same value. -/
theorem encode_id_amended_witness :
    ((JSVal.obj [("id", JSVal.str "9")]).get "id").isUndefined = false ∧
    (craftUpdateMessage (JSVal.obj [("id", JSVal.str "9")])
        updateMethodString).get "id" =
      (JSVal.obj [("id", JSVal.str "9")]).get "id" :=
  ⟨rfl, (encode_id_amended (JSVal.obj [("id", JSVal.str "9")])
    updateMethodString).2.1 rfl⟩
